import Mathlib

/-!
Verification of the gltf-viewer skybox / image-based-lighting bake subsystem.

The embedding translates the Rust sources `src/skybox/loader.rs`,
`src/skybox/mod.rs`, `src/cubemap/renderer.rs` and the GLSL fragment shaders
embedded in `src/cubemap/mod.rs` / `src/cubemap/filt.rs` into Lean.

Modelling conventions:
* Machine integers (`u32`, image dimensions) are `Nat`, with `% 2 ^ 32`
  where 32-bit wrap-around matters (the `radical_inverse_vdc` bit cascade).
* GLSL `float` scalars are modelled as exact rationals `ℚ`.  Float literals
  that are exactly representable keep their value (`0.25`, `512.0`,
  `2.3283064365386963e-10 = 2 ^ (-32)`); the shader's `PI` literal is
  modelled by the `binary32` value it rounds to, `PI32`.  The integration
  step `0.01` is idealised to `1/100`.  Transcendental built-ins
  (`sin`, `cos`, `atan`, `asin`) and texture fetches are opaque parameters.
* Fallible Rust code returns `Except`; a Rust `panic!` / `.unwrap()` on an
  error value is an `Except.error` carrying a `Panic`.
* The vulkano command buffer (`AutoCommandBufferBuilder`) is a `List Cmd` of
  recorded commands, threaded through the loader exactly where the Rust code
  records work on the builder.
-/

namespace GltfViewer

/-- Failure of the underlying `image` crate decode (`image::ImageError`);
its payload is irrelevant here. -/
inductive ImageError
  | decodeFailure
  deriving DecidableEq, Repr

/-- The panorama produced by `image::open(path)?.to_rgba32f()`: a pixel
buffer together with its `width()` and `height()`.  Only the dimensions
matter to the loader logic. -/
structure DecodedImage where
  width : Nat
  height : Nat
  deriving DecidableEq, Repr

/-- `LoadSkyboxError` (src/skybox/loader.rs): either a transparent decode
error or the aspect-ratio domain error (Rust variant `WrongAspect`, whose
display text is "equirectangular image must be 2:1"). -/
inductive LoadSkyboxError
  | image (e : ImageError)
  | wrongAspect
  deriving DecidableEq, Repr

/-- The fields of a vulkano `Image` that the bake logic depends on:
`extent`, `array_layers`, `mip_levels`.  Format and usage flags are fixed
by the code and not modelled. -/
structure GpuImage where
  extent : Nat × Nat × Nat
  arrayLayers : Nat
  mipLevels : Nat
  deriving DecidableEq, Repr

/-- Which bake pass a recorded render command belongs to. -/
inductive PassKind
  | equirectangular
  | convolute
  | filter
  deriving DecidableEq, Repr

/-- A GPU command recorded on the `AutoCommandBufferBuilder`. -/
inductive Cmd
  | copyBufferToImage (width height : Nat)
  | render (pass : PassKind) (mip : Nat)
  | pushConstants (roughness : ℚ)
  deriving DecidableEq, Repr

/-- `create_cubemap_image(allocator, size, mips)` (src/cubemap/renderer.rs
lines 192-218): a cube-compatible image with six array layers, square
extent `[size, size, 1]` and `mip_levels = mips`. -/
def create_cubemap_image (size mips : Nat) : GpuImage :=
  { extent := (size, size, 1), arrayLayers := 6, mipLevels := mips }

/-- `load_skybox(allocator, path, builder)` (src/skybox/loader.rs lines
149-206).  The decode result of `image::open(path)?.to_rgba32f()` is passed
in as `decoded`.  The aspect test `image.width() / 2 != image.height()`
(integer division) happens before the staging buffer is filled and before
the `copy_buffer_to_image` command is recorded, so on failure the builder
is returned unchanged. -/
def load_skybox (decoded : Except ImageError DecodedImage) (builder : List Cmd) :
    Except LoadSkyboxError GpuImage × List Cmd :=
  match decoded with
  | .error e => (.error (.image e), builder)
  | .ok image =>
    if image.width / 2 ≠ image.height then
      (.error .wrongAspect, builder)
    else
      ((.ok { extent := (image.width, image.height, 1), arrayLayers := 1, mipLevels := 1 }),
        builder ++ [.copyBufferToImage image.width image.height])

/-- The per-mip roughness push constant of the specular prefilter loop
(src/skybox/loader.rs line 125): `mip as f32 / (mips - 1) as f32`.
For `mips = 5` every quotient `m/4` is exactly representable in `f32`,
so `ℚ` models the computation exactly. -/
def filter_roughness (mips mip : Nat) : ℚ :=
  (mip : ℚ) / ((mips - 1 : Nat) : ℚ)

/-- `SkyboxLoader::load` (src/skybox/loader.rs lines 79-139): upload the
panorama, render it to a raw cube of per-face size `equi.extent()[0] / 4`,
convolute into an 8-per-face irradiance cube, then prefilter into a
512-per-face specular cube with 5 mips, pushing
`roughness = mip / (mips - 1)` before rendering each mip.
Returns `(cube, conv, filt)`. -/
def SkyboxLoader.load (decoded : Except ImageError DecodedImage) (builder : List Cmd) :
    Except LoadSkyboxError (GpuImage × GpuImage × GpuImage) × List Cmd :=
  match load_skybox decoded builder with
  | (.error e, b) => (.error e, b)
  | (.ok equi, b) =>
    let cube := create_cubemap_image (equi.extent.1 / 4) 1
    let b := b ++ [.render .equirectangular 0]
    let conv := create_cubemap_image 8 1
    let b := b ++ [.render .convolute 0]
    let mips := 5
    let filt := create_cubemap_image 512 mips
    let b := (List.range mips).foldl
      (fun b mip => b ++ [.pushConstants (filter_roughness mips mip), .render .filter mip]) b
    (.ok (cube, conv, filt), b)

/-- The sequence of roughness push constants recorded on a builder, in
order. -/
def pushed_roughness (cmds : List Cmd) : List ℚ :=
  cmds.filterMap fun c =>
    match c with
    | .pushConstants r => some r
    | _ => none

/-! ## The `Skybox` job / handoff state machine (src/skybox/mod.rs)

`Skybox` holds `job : Option JoinHandle` and a `SkyboxRenderer` whose
`skybox : Option<Arc<DescriptorSet>>` field is the binding read when the skybox
is drawn; we model that binding by the cube image it binds.

The background thread spawned by `Skybox::load` runs
`loader.load(path, &mut builder).unwrap()`: on a decode or aspect error
the `.unwrap()` makes the thread panic, so joining the handle yields an
`Err`.  We model the eventual outcome of a spawned thread as an
`Except LoadSkyboxError (three images)` stored in the `Job` at spawn time,
together with a `finished` flag (`JoinHandle::is_finished`) that the
passage of time flips via `Job.finish`.

A note on the snapshot: `Skybox.job` is declared as
`Option<JoinHandle<(Arc<Image>, Arc<Image>)>>` while `SkyboxLoader::load`
in the same tree returns a triple (the commented-out `Ok((filt, conv))`
lines show the pair-returning historical variant).  We keep the loader's
triple and let `update` use its first two components `(cube, conv)` the
way `Skybox::update` destructures its pair: the cube image goes into the
renderer binding, `conv` is returned to the caller. -/

instance {ε α : Type} [DecidableEq ε] [DecidableEq α] : DecidableEq (Except ε α) :=
  fun a b =>
    match a, b with
    | .ok x, .ok y =>
      if h : x = y then isTrue (by rw [h]) else isFalse (fun hc => h (Except.ok.inj hc))
    | .error x, .error y =>
      if h : x = y then isTrue (by rw [h]) else isFalse (fun hc => h (Except.error.inj hc))
    | .ok _, .error _ => isFalse (fun hc => Except.noConfusion hc)
    | .error _, .ok _ => isFalse (fun hc => Except.noConfusion hc)

/-- A spawned bake job: `finished` is `JoinHandle::is_finished`; `result`
is what joining will produce once the thread has run — `.error e` means
the thread panicked at `loader.load(..).unwrap()` on the load error `e`. -/
structure Job where
  finished : Bool
  result : Except LoadSkyboxError (GpuImage × GpuImage × GpuImage)
  deriving DecidableEq, Repr

/-- Time passing: the background thread runs to completion (successful or
panicked), after which `is_finished` reports `true`. -/
def Job.finish (j : Job) : Job :=
  { j with finished := true }

/-- The `Skybox` state (src/skybox/mod.rs lines 26-30): the renderer's
active binding (`renderer.skybox`, modelled by the image it binds; `none`
at startup) and the in-flight job slot. -/
structure Skybox where
  rendererSkybox : Option GpuImage
  job : Option Job
  deriving DecidableEq, Repr

/-- `Skybox::loading` (lines 98-100): `self.job.is_some()`. -/
def Skybox.loading (s : Skybox) : Bool :=
  s.job.isSome

/-- Spawning the background thread of `Skybox::load` (lines 77-95): the
thread decodes `path` (decoding is the opaque `decode` oracle), runs
`SkyboxLoader::load` on a fresh command buffer and unwraps the result;
it then submits and blocks on the fence, which has no effect on the
`Skybox` state. -/
def spawn_job (decode : Nat → Except ImageError DecodedImage) (path : Nat) : Job :=
  { finished := false, result := (SkyboxLoader.load (decode path) []).1 }

/-- `Skybox::load` (lines 72-97): a no-op while `loading()`; otherwise
store a fresh job handle.  Nothing else in the state is touched. -/
def Skybox.load (decode : Nat → Except ImageError DecodedImage) (s : Skybox)
    (path : Nat) : Skybox :=
  if s.loading then s
  else { s with job := some (spawn_job decode path) }

/-- A panic of the main thread inside `Skybox::update`:
`job.join().unwrap()` on a handle whose thread panicked on `e`. -/
inductive Panic
  | joinUnwrap (e : LoadSkyboxError)
  deriving DecidableEq, Repr

/-- `Skybox::update` (lines 101-135): `self.job.take_if(|j| j.is_finished())`
leaves the state untouched (returning `none`) when there is no job or the
job is still running; a finished job is removed and joined —
`join().unwrap()` panics if the thread panicked, otherwise the renderer
binding is replaced by a descriptor set over the `cube` image and `conv`
is returned to the caller. -/
def Skybox.update (s : Skybox) : Except Panic (Skybox × Option GpuImage) :=
  match s.job with
  | none => .ok (s, none)
  | some j =>
    if j.finished then
      match j.result with
      | .ok (cube, conv, _filt) =>
        .ok ({ rendererSkybox := some cube, job := none }, some conv)
      | .error e => .error (.joinUnwrap e)
    else
      .ok (s, none)

/-- The environment binding created at startup; stands for whatever the
renderer currently binds. -/
def startup_binding : GpuImage :=
  { extent := (1, 1, 1), arrayLayers := 6, mipLevels := 1 }

/-- A decode oracle whose every path fails to decode. -/
def decode_fail : Nat → Except ImageError DecodedImage :=
  fun _ => .error .decodeFailure

/-- A successful bake outcome (the images of the 8×4 panorama), used to
build concrete witness states. -/
def bake_ok : Except LoadSkyboxError (GpuImage × GpuImage × GpuImage) :=
  .ok (create_cubemap_image 2 1, create_cubemap_image 8 1, create_cubemap_image 512 5)

/-- A job whose thread is still running. -/
def job_running : Job :=
  { finished := false, result := bake_ok }

/-- A finished, successfully baked job. -/
def job_done : Job :=
  { finished := true, result := bake_ok }

/-- A finished job whose thread panicked on a decode failure. -/
def job_failed : Job :=
  { finished := true, result := .error (.image .decodeFailure) }

/-! ## The GLSL fragment shaders (src/cubemap/mod.rs, src/cubemap/filt.rs)

Scalars are exact rationals; 3-component vectors are `ℚ × ℚ × ℚ` with the
componentwise module structure.  The GPU built-ins `atan`, `asin`, `cos`,
`sin` and the cubemap/2D texture fetches are opaque function parameters. -/

/-- A GLSL `vec3` over exact rationals. -/
abbrev Vec3 := ℚ × ℚ × ℚ

/-- The shader constant `PI = 3.14159265358979323846264338327950288`:
the nearest `binary32` float to that literal, `0x40490FDB`, whose exact
value is `13176795 / 2 ^ 22`. -/
def PI32 : ℚ := 13176795 / 4194304

/-- `sampleSphericalMap` from the equirect-to-cube fragment shader
(src/cubemap/mod.rs lines 210-216): compute `phi = atan(dir.z, dir.x)`,
`theta = asin(dir.y)`, map them to `u = (phi + PI) / (2 PI)`,
`v = (theta + PI/2) / PI` and return `1.0 - vec2(u, v)`.  The built-ins
`atan` (two-argument) and `asin` are the opaque parameters `atan2`/`asin`. -/
def sampleSphericalMap (atan2 : ℚ → ℚ → ℚ) (asin : ℚ → ℚ) (dir : Vec3) : ℚ × ℚ :=
  let phi := atan2 dir.2.2 dir.1
  let theta := asin dir.2.1
  let u := (phi + PI32) / (2 * PI32)
  let v := (theta + PI32 / 2) / PI32
  (1 - u, 1 - v)

/-- The mask-and-shift cascade of `radical_inverse_vdc` (src/cubemap/mod.rs
lines 300-307 and, identically, src/cubemap/filt.rs lines 77-84), on a
GLSL `uint` modelled as a natural number reduced `% 2 ^ 32` wherever a
left shift could carry out of 32 bits. -/
def vdc_bits (bits : Nat) : Nat :=
  let b := bits
  let b := ((b <<< 16) % 2 ^ 32) ||| (b >>> 16)
  let b := (((b &&& 0x55555555) <<< 1) % 2 ^ 32) ||| ((b &&& 0xAAAAAAAA) >>> 1)
  let b := (((b &&& 0x33333333) <<< 2) % 2 ^ 32) ||| ((b &&& 0xCCCCCCCC) >>> 2)
  let b := (((b &&& 0x0F0F0F0F) <<< 4) % 2 ^ 32) ||| ((b &&& 0xF0F0F0F0) >>> 4)
  let b := (((b &&& 0x00FF00FF) <<< 8) % 2 ^ 32) ||| ((b &&& 0xFF00FF00) >>> 8)
  b

/-- `radical_inverse_vdc`: the cascade result times
`2.3283064365386963e-10`.  That decimal literal rounds (in `binary32` as
in `binary64`) to exactly `2 ^ (-32)` — the source comment itself says
`// / 0x100000000` — so the scale is modelled as exactly `1 / 2 ^ 32`.
(The conversion `float(bits)` also rounds to 24 bits of mantissa on a GPU;
that rounding is idealised away here.) -/
def radical_inverse_vdc (bits : Nat) : ℚ :=
  (vdc_bits bits : ℚ) * (1 / 2 ^ 32)

/-- `hammersley(i, N)` (src/cubemap/mod.rs lines 308-310):
`vec2(float(i)/float(N), radical_inverse_vdc(i))`. -/
def hammersley (i N : Nat) : ℚ × ℚ :=
  ((i : ℚ) / (N : ℚ), radical_inverse_vdc i)

/-- A GLSL `for (float x = start; x < bound; x += step) body` loop over a
state `σ`.  `fuel` is an upper bound on the iteration count, consumed one
unit per iteration; every use in this file supplies fuel strictly larger
than the number of iterations actually performed (which the corresponding
theorems pin down exactly), so the cutoff is never reached. -/
def float_for {σ : Type} (fuel : Nat) (bound step : ℚ) (body : ℚ → σ → σ)
    (x : ℚ) (st : σ) : σ :=
  match fuel with
  | 0 => st
  | fuel + 1 =>
    if x < bound then float_for fuel bound step body (x + step) (body x st) else st

/-- The direction sampled by the irradiance convolution shader at angles
`(phi, theta)`:  `temp = cos(phi) * right + sin(phi) * up;
sample_dir = cos(theta) * N + sin(theta) * temp`. -/
def conv_sample_dir (cosq sinq : ℚ → ℚ) (N right up : Vec3) (phi theta : ℚ) : Vec3 :=
  cosq theta • N + sinq theta • (cosq phi • right + sinq phi • up)

/-- The body of `main` of the irradiance convolution shader `conv_fs`
(src/cubemap/mod.rs lines 243-268), for an already-normalised direction
`N` and orthonormal frame `(right, up)`: two nested fixed-step loops,
`phi` from `0` while `phi < 2 PI` and `theta` from `0` while
`theta < 0.5 PI`, each in steps of `0.01`, accumulating
`texture(envMap, sample_dir).rgb * cos(theta) * sin(theta)` and a sample
counter, then scaling by `PI / samples`.  `tex` is the opaque cubemap
fetch, `cosq`/`sinq` the opaque trigonometric built-ins. -/
def conv_main (tex : Vec3 → Vec3) (cosq sinq : ℚ → ℚ) (N right up : Vec3) : Vec3 :=
  let st :=
    float_for 1024 (2 * PI32) (1 / 100)
      (fun phi st =>
        float_for 256 ((1 / 2) * PI32) (1 / 100)
          (fun theta (st : Vec3 × ℚ) =>
            (st.1 + (cosq theta * sinq theta) • tex (conv_sample_dir cosq sinq N right up phi theta),
             st.2 + 1))
          0 st)
      0 (((0, 0, 0) : Vec3), (0 : ℚ))
  (PI32 / st.2) • st.1



/-- C1: the spec claims `load()` fails with `WrongAspectRatio` iff the decoded
width is not exactly twice the height.  The code's test is
`image.width() / 2 != image.height()` with integer division, so a 5×2
panorama — whose width is not twice its height — is accepted, contradicting
the code's own error text "equirectangular image must be 2:1".  The check
that does exist runs before any GPU command is recorded: on rejection
(e.g. 5×3) the builder is returned unchanged. -/
theorem load_skybox_aspect_bug :
    (load_skybox (.ok ⟨5, 2⟩) []).1 =
      .ok { extent := (5, 2, 1), arrayLayers := 1, mipLevels := 1 } ∧
    (5 : Nat) ≠ 2 * 2 ∧ (5 : Nat) / 2 = 2 ∧
    (load_skybox (.ok ⟨5, 3⟩) []).1 = .error .wrongAspect ∧
    (load_skybox (.ok ⟨5, 3⟩) []).2 = [] ∧
    ∀ img : DecodedImage,
      ((load_skybox (.ok img) []).1 = .error .wrongAspect ↔ img.width / 2 ≠ img.height) ∧
      ((load_skybox (.ok img) []).1 = .error .wrongAspect →
        (load_skybox (.ok img) []).2 = []) := by
  refine ⟨rfl, by decide, rfl, rfl, rfl, ?_⟩
  intro img
  by_cases h : img.width / 2 = img.height <;> simp [load_skybox, h]

/-- C2 (counterexample): the claim's raw per-face size `srcHeight/4` fails on
the code, which uses `equi.extent()[0] / 4 = width/4`.  For the 8×4
panorama (which does satisfy `width = 2 × height`) the code produces a raw
cube of per-face size 2, while `height / 4 = 1`. -/
theorem skybox_load_sizes_cex :
    (8 : Nat) = 2 * 4 ∧
    (SkyboxLoader.load (.ok ⟨8, 4⟩) []).1 =
      .ok (create_cubemap_image 2 1, create_cubemap_image 8 1, create_cubemap_image 512 5) ∧
    (create_cubemap_image 2 1).extent.1 = 2 ∧ (4 : Nat) / 4 = 1 ∧ (2 : Nat) ≠ 1 := by
  refine ⟨by decide, rfl, rfl, rfl, by decide⟩

/-- C2 (amended): for every successfully decoded panorama with
`width = 2 × height`, `SkyboxLoader::load` succeeds and returns three cube
images with per-face sizes `width/4` (that is, `height/2`), `8` and `512`,
and mip counts `1`, `1` and `5`. -/
theorem skybox_load_ok (img : DecodedImage) (h : img.width = 2 * img.height) :
    (SkyboxLoader.load (.ok img) []).1 =
      .ok (create_cubemap_image (img.width / 4) 1, create_cubemap_image 8 1,
        create_cubemap_image 512 5) ∧
    img.width / 4 = img.height / 2 ∧
    (create_cubemap_image (img.width / 4) 1).mipLevels = 1 ∧
    (create_cubemap_image 8 1).mipLevels = 1 ∧
    (create_cubemap_image 512 5).mipLevels = 5 := by
  have hw : img.width / 2 = img.height := by omega
  refine ⟨?_, by omega, rfl, rfl, rfl⟩
  simp [SkyboxLoader.load, load_skybox, hw]

/-- C2 witness: the amended theorem applied to the 8×4 panorama. -/
theorem skybox_load_ok_witness :
    (8 : Nat) = 2 * 4 ∧
    ((SkyboxLoader.load (.ok ⟨8, 4⟩) []).1 =
      .ok (create_cubemap_image (8 / 4) 1, create_cubemap_image 8 1,
        create_cubemap_image 512 5) ∧
    (8 : Nat) / 4 = 4 / 2 ∧
    (create_cubemap_image (8 / 4) 1).mipLevels = 1 ∧
    (create_cubemap_image 8 1).mipLevels = 1 ∧
    (create_cubemap_image 512 5).mipLevels = 5) :=
  ⟨by decide, skybox_load_ok ⟨8, 4⟩ (by decide)⟩

/-- C6: for `mips = 5` the prefilter loop pushes `roughness = mip/(mips-1)`:
`0` at mip 0, increasing monotonically in even steps of `1/4` up to exactly
`1` at mip 4; and a successful `SkyboxLoader::load` records exactly those
five push constants, in mip order. -/
theorem filter_roughness_mapping :
    (∀ m < 5, filter_roughness 5 m = (m : ℚ) / 4) ∧
    filter_roughness 5 0 = 0 ∧ filter_roughness 5 4 = 1 ∧
    (∀ m, m + 1 < 5 → filter_roughness 5 (m + 1) - filter_roughness 5 m = 1 / 4) ∧
    (∀ m n, m < n → n < 5 → filter_roughness 5 m < filter_roughness 5 n) ∧
    ∀ img : DecodedImage, img.width / 2 = img.height →
      pushed_roughness (SkyboxLoader.load (.ok img) []).2 =
        [0, 1 / 4, 1 / 2, 3 / 4, 1] := by
  refine ⟨?_, by norm_num [filter_roughness], by norm_num [filter_roughness], ?_, ?_, ?_⟩
  · intro m hm
    interval_cases m <;> norm_num [filter_roughness]
  · intro m hm
    have hm4 : m < 4 := by omega
    interval_cases m <;> norm_num [filter_roughness]
  · intro m n hmn hn
    interval_cases n <;> interval_cases m <;> norm_num [filter_roughness]
  · intro img hw
    simp [SkyboxLoader.load, load_skybox, hw, pushed_roughness, List.range_succ]
    norm_num [filter_roughness]

/-- C6 witness: the mapping evaluated at mip 2 and at the 8×4 panorama. -/
theorem filter_roughness_mapping_witness :
    filter_roughness 5 2 = (2 : ℚ) / 4 ∧
    pushed_roughness (SkyboxLoader.load (.ok ⟨8, 4⟩) []).2 =
      [0, 1 / 4, 1 / 2, 3 / 4, 1] :=
  ⟨filter_roughness_mapping.1 2 (by decide),
    filter_roughness_mapping.2.2.2.2.2 ⟨8, 4⟩ (by decide)⟩

/-- C4: at most one bake job is in flight: whenever a job is present,
`Skybox::load` returns immediately — the state (job slot, renderer
binding) is exactly unchanged and no new job is spawned. -/
theorem skybox_single_flight (decode : Nat → Except ImageError DecodedImage)
    (s : Skybox) (path : Nat) (h : s.job.isSome = true) :
    Skybox.load decode s path = s ∧ s.loading = true := by
  constructor
  · simp [Skybox.load, Skybox.loading, h]
  · simpa [Skybox.loading] using h

/-- C4 witness: a state holding an unfinished job ignores a second request. -/
theorem skybox_single_flight_witness :
    Skybox.load decode_fail ⟨some startup_binding, some job_running⟩ 7 =
      ⟨some startup_binding, some job_running⟩ ∧
    Skybox.loading ⟨some startup_binding, some job_running⟩ = true :=
  skybox_single_flight decode_fail ⟨some startup_binding, some job_running⟩ 7 rfl

/-- C5: `update` swaps the binding only after a finished job is joined:
with no job, or with a still-running job, it returns `none` and leaves the
whole state (job slot and active binding) unchanged; with a finished
successfully-baked job it takes the job, joins it, stores the new binding
built over the resulting `cube` image and returns the `conv` image. -/
theorem skybox_update_swap (s : Skybox) (j : Job)
    (cube conv filt : GpuImage) :
    (s.job = none → Skybox.update s = .ok (s, none)) ∧
    (s.job = some j → j.finished = false → Skybox.update s = .ok (s, none)) ∧
    (s.job = some j → j.finished = true → j.result = .ok (cube, conv, filt) →
      Skybox.update s =
        .ok ({ rendererSkybox := some cube, job := none }, some conv)) := by
  refine ⟨?_, ?_, ?_⟩
  · intro h
    simp [Skybox.update, h]
  · intro h hf
    simp [Skybox.update, h, hf]
  · intro h hf hr
    simp [Skybox.update, h, hf, hr]

/-- C5 witness: the three cases at concrete states (empty slot, running
job, finished successful job). -/
theorem skybox_update_swap_witness :
    Skybox.update ⟨some startup_binding, none⟩ =
      .ok (⟨some startup_binding, none⟩, none) ∧
    Skybox.update ⟨some startup_binding, some job_running⟩ =
      .ok (⟨some startup_binding, some job_running⟩, none) ∧
    Skybox.update ⟨some startup_binding, some job_done⟩ =
      .ok (⟨some (create_cubemap_image 2 1), none⟩,
        some (create_cubemap_image 8 1)) :=
  ⟨(skybox_update_swap ⟨some startup_binding, none⟩ job_running
      (create_cubemap_image 2 1) (create_cubemap_image 8 1)
      (create_cubemap_image 512 5)).1 rfl,
   (skybox_update_swap ⟨some startup_binding, some job_running⟩ job_running
      (create_cubemap_image 2 1) (create_cubemap_image 8 1)
      (create_cubemap_image 512 5)).2.1 rfl rfl,
   (skybox_update_swap ⟨some startup_binding, some job_done⟩ job_done
      (create_cubemap_image 2 1) (create_cubemap_image 8 1)
      (create_cubemap_image 512 5)).2.2 rfl rfl rfl⟩

/-- C3: on a failed bake the failure is NOT surfaced as an error result.
Loading a path that fails to decode leaves the renderer binding alone at
first, but once the background thread has finished (having panicked at
`loader.load(..).unwrap()`), the consuming `update()` call hits
`job.join().unwrap()` and panics the main thread instead of returning an
error value: the claimed error-result contract does not hold on this code. -/
theorem skybox_failed_job_panics :
    (Skybox.load decode_fail ⟨some startup_binding, none⟩ 7).rendererSkybox =
      some startup_binding ∧
    (Skybox.load decode_fail ⟨some startup_binding, none⟩ 7).job =
      some ⟨false, .error (.image .decodeFailure)⟩ ∧
    (⟨false, .error (.image .decodeFailure)⟩ : Job).finish = job_failed ∧
    Skybox.update ⟨some startup_binding, some job_failed⟩ =
      .error (.joinUnwrap (.image .decodeFailure)) := by
  refine ⟨rfl, rfl, rfl, rfl⟩

/-- C10: a finished-but-unconsumed job still blocks new requests.  While
the job slot is occupied (running or finished), `loading()` is `true`,
further `load()` calls are dropped, and a non-consuming `update()` (job
still running) changes nothing; only an `update()` that observes the
finished job clears the slot, after which a new `load()` is accepted
(its job slot becomes occupied again). -/
theorem skybox_job_blocks_until_consumed
    (decode : Nat → Except ImageError DecodedImage) (s : Skybox)
    (p q : Nat) (j : Job) (h : s.job = some j) :
    s.loading = true ∧
    Skybox.load decode s p = s ∧
    (j.finished = false → Skybox.update s = .ok (s, none)) ∧
    (∀ s2 out, j.finished = true → Skybox.update s = .ok (s2, out) →
      s2.job = none ∧ s2.loading = false ∧
      (Skybox.load decode s2 q).job =
        some (spawn_job decode q)) := by
  have hsome : s.job.isSome = true := by simp [h]
  refine ⟨by simpa [Skybox.loading] using hsome,
    by simp [Skybox.load, Skybox.loading, hsome], ?_, ?_⟩
  · intro hf
    simp [Skybox.update, h, hf]
  · intro s2 out hf hup
    rw [Skybox.update, h] at hup
    simp [hf] at hup
    match hr : j.result with
    | .ok (cube, conv, filt) =>
      rw [hr] at hup
      simp at hup
      have hs2 : s2.job = none := by
        rw [← hup.1]
      refine ⟨hs2, by simp [Skybox.loading, hs2], ?_⟩
      simp [Skybox.load, Skybox.loading, hs2]
    | .error e =>
      rw [hr] at hup
      simp at hup

/-- C10 witness: a finished successful job blocks a second `load`; the
consuming `update` unblocks it. -/
theorem skybox_job_blocks_until_consumed_witness :
    Skybox.loading ⟨none, some job_done⟩ = true ∧
    Skybox.load decode_fail ⟨none, some job_done⟩ 3 = ⟨none, some job_done⟩ ∧
    (⟨some (create_cubemap_image 2 1), none⟩ : Skybox).job = none ∧
    Skybox.loading ⟨some (create_cubemap_image 2 1), none⟩ = false ∧
    (Skybox.load decode_fail ⟨some (create_cubemap_image 2 1), none⟩ 4).job =
      some (spawn_job decode_fail 4) := by
  have h := skybox_job_blocks_until_consumed decode_fail ⟨none, some job_done⟩
    3 4 job_done rfl
  have h4 := h.2.2.2 ⟨some (create_cubemap_image 2 1), none⟩
    (some (create_cubemap_image 8 1)) rfl rfl
  exact ⟨h.1, h.2.1, h4.1, h4.2.1, h4.2.2⟩

/-- C7 (counterexample): the claim that the equirect shader samples at
`u = (atan2(z,x) + π) / 2π`, `v = (asin(y) + π/2) / π` fails: at the
direction `(0, 0, 1)`, with the built-ins returning their mathematical
values there (`atan(1.0, 0.0) = π/2`, `asin(0.0) = 0`), the shader
produces `(1/4, 1/2)` while the claimed coordinates are `(3/4, 1/2)`. -/
theorem sampleSphericalMap_cex :
    sampleSphericalMap (fun _ _ => PI32 / 2) (fun _ => 0) (0, 0, 1) ≠
      ((PI32 / 2 + PI32) / (2 * PI32), ((0 : ℚ) + PI32 / 2) / PI32) := by
  norm_num [sampleSphericalMap, PI32, Prod.ext_iff]

/-- C7 (amended): for every direction, the equirect-to-cube fragment shader
computes `u = (atan2(z,x) + π) / 2π` and `v = (asin(y) + π/2) / π` and then
samples the panorama at the flipped coordinates `(1 - u, 1 - v)`,
equivalently `((π - atan2(z,x)) / 2π, (π/2 - asin(y)) / π)`. -/
theorem sampleSphericalMap_flipped (atan2 : ℚ → ℚ → ℚ) (asin : ℚ → ℚ) (dir : Vec3) :
    sampleSphericalMap atan2 asin dir =
      (1 - (atan2 dir.2.2 dir.1 + PI32) / (2 * PI32),
       1 - (asin dir.2.1 + PI32 / 2) / PI32) ∧
    sampleSphericalMap atan2 asin dir =
      ((PI32 - atan2 dir.2.2 dir.1) / (2 * PI32),
       (PI32 / 2 - asin dir.2.1) / PI32) := by
  have hpi : (PI32 : ℚ) ≠ 0 := by norm_num [PI32]
  constructor
  · rfl
  · unfold sampleSphericalMap
    refine Prod.ext_iff.mpr ⟨?_, ?_⟩ <;> · field_simp; ring

/-- `x % 4294967296` keeps exactly the low 32 bits. -/
lemma testBit_mod32 (x k : Nat) :
    (x % 4294967296).testBit k = (decide (k < 32) && x.testBit k) := by
  have h := Nat.testBit_mod_two_pow x 32 k
  norm_num at h
  exact h

/-- One cascade stage `(x % 2^32) ||| (y >>> s)` stays below `2^32` when
`y` does. -/
lemma vdc_stage_lt (x y s : Nat) (hy : y < 2 ^ 32) :
    ((x % 2 ^ 32) ||| (y >>> s)) < 2 ^ 32 :=
  Nat.or_lt_two_pow (Nat.mod_lt _ (by norm_num))
    (lt_of_le_of_lt
      (by rw [Nat.shiftRight_eq_div_pow]; exact Nat.div_le_self _ _) hy)

/-- C9: for every 32-bit input `b`, the mask-and-shift cascade of
`radical_inverse_vdc` computes the bit-reversal of `b` as a 32-bit word —
bit `j` of the result is bit `31 - j` of the input — and the result is
rescaled by `2^-32` into `[0, 1)`; `hammersley(i, N)` is the pair
`(i/N, radical_inverse_vdc(i))`. -/
theorem radical_inverse_vdc_bit_reversal (b : Nat) (hb : b < 2 ^ 32) :
    vdc_bits b < 2 ^ 32 ∧
    (∀ j < 32, (vdc_bits b).testBit j = b.testBit (31 - j)) ∧
    radical_inverse_vdc b = (vdc_bits b : ℚ) / 2 ^ 32 ∧
    0 ≤ radical_inverse_vdc b ∧ radical_inverse_vdc b < 1 ∧
    ∀ N, hammersley b N = ((b : ℚ) / (N : ℚ), radical_inverse_vdc b) := by
  have hlt : vdc_bits b < 2 ^ 32 := by
    simp only [vdc_bits]
    exact vdc_stage_lt _ _ _ (lt_of_le_of_lt Nat.and_le_left
      (vdc_stage_lt _ _ _ (lt_of_le_of_lt Nat.and_le_left
        (vdc_stage_lt _ _ _ (lt_of_le_of_lt Nat.and_le_left
          (vdc_stage_lt _ _ _ (lt_of_le_of_lt Nat.and_le_left
            (vdc_stage_lt _ _ _ hb))))))))
  have hhigh : ∀ i, 32 ≤ i → b.testBit i = false := fun i hi =>
    Nat.testBit_lt_two_pow (lt_of_lt_of_le hb (Nat.pow_le_pow_right (by norm_num) hi))
  refine ⟨hlt, ?_, by rw [radical_inverse_vdc]; ring, ?_, ?_, fun N => rfl⟩
  · intro j hj
    interval_cases j <;>
    · simp only [vdc_bits]
      norm_num [Nat.testBit_lor, Nat.testBit_land, Nat.testBit_shiftLeft,
        Nat.testBit_shiftRight, testBit_mod32, hhigh]
      norm_num [Nat.testBit_to_div_mod]
  · rw [radical_inverse_vdc]
    positivity
  · rw [radical_inverse_vdc, mul_one_div, div_lt_one (by norm_num)]
    exact_mod_cast hlt

/-- C9 witness: the theorem at `b = 1`; in particular
`radical_inverse_vdc 1` is the reversal `2^31` scaled to `1/2`. -/
theorem radical_inverse_vdc_bit_reversal_witness :
    (vdc_bits 1 < 2 ^ 32 ∧
      (∀ j < 32, (vdc_bits 1).testBit j = Nat.testBit 1 (31 - j)) ∧
      radical_inverse_vdc 1 = (vdc_bits 1 : ℚ) / 2 ^ 32 ∧
      0 ≤ radical_inverse_vdc 1 ∧ radical_inverse_vdc 1 < 1 ∧
      ∀ N, hammersley 1 N = ((1 : ℚ) / (N : ℚ), radical_inverse_vdc 1)) ∧
    vdc_bits 1 = 2 ^ 31 :=
  ⟨radical_inverse_vdc_bit_reversal 1 (by norm_num), by decide⟩

/-- A `float_for` loop whose guard admits exactly the first `n` grid points
`x, x + step, …, x + (n-1)·step` (and is given at least `n` fuel) folds its
body over exactly that list of values. -/
lemma float_for_eq_foldl {σ : Type} (body : ℚ → σ → σ) (bound step : ℚ) :
    ∀ (n : Nat) (x : ℚ) (st : σ) (fuel : Nat),
      (∀ k < n, x + (k : ℚ) * step < bound) →
      ¬(x + (n : ℚ) * step < bound) →
      n ≤ fuel →
      float_for fuel bound step body x st =
        ((List.range n).map (fun k : ℕ => x + (k : ℚ) * step)).foldl
          (fun st v => body v st) st := by
  intro n
  induction n with
  | zero =>
    intro x st fuel h0 hend hfuel
    have hx : ¬ x < bound := by simpa using hend
    cases fuel with
    | zero => simp [float_for]
    | succ f => simp [float_for, hx]
  | succ n ih =>
    intro x st fuel hlt hend hfuel
    obtain ⟨f, rfl⟩ : ∃ f, fuel = f + 1 := ⟨fuel - 1, by omega⟩
    have hx : x < bound := by simpa using hlt 0 (by omega)
    rw [float_for]
    simp only [if_pos hx]
    rw [ih (x + step) (body x st) f ?_ ?_ (by omega)]
    · rw [List.range_succ_eq_map, List.map_cons, List.map_map, List.foldl_cons]
      have harg : x + ((0 : ℕ) : ℚ) * step = x := by push_cast; ring
      rw [harg]
      have hfun : (fun k : ℕ => x + step + (k : ℚ) * step) =
          ((fun k : ℕ => x + (k : ℚ) * step) ∘ Nat.succ) := by
        funext k
        simp only [Function.comp_apply]
        push_cast
        ring
      rw [hfun]
    · intro k hk
      have h := hlt (k + 1) (by omega)
      push_cast at h ⊢
      linarith
    · have h := hend
      push_cast at h ⊢
      intro hc
      exact h (by linarith)

/-- Folding `(acc, count) ↦ (acc + f v, count + m)` over a list adds the
mapped sum to the accumulator and `m` per element to the counter. -/
lemma foldl_pair_add (f : ℚ → Vec3) (m : ℚ) :
    ∀ (l : List ℚ) (a : Vec3) (c : ℚ),
      l.foldl (fun st v => (st.1 + f v, st.2 + m)) (a, c) =
        (a + (l.map f).sum, c + m * (l.length : ℚ)) := by
  intro l
  induction l with
  | nil => intro a c; simp
  | cons v l ih =>
    intro a c
    rw [List.foldl_cons, ih]
    rw [List.map_cons, List.sum_cons, List.length_cons]
    push_cast
    refine Prod.ext_iff.mpr ⟨?_, ?_⟩
    · show a + f v + (l.map f).sum = a + (f v + (l.map f).sum)
      rw [add_assoc]
    · show c + m + m * (l.length : ℚ) = c + m * ((l.length : ℚ) + 1)
      ring

/-- The sum of `f` mapped over `List.range n` is the `Finset.range` sum. -/
lemma sum_map_list_range {M : Type} [AddCommMonoid M] (f : ℕ → M) (n : ℕ) :
    ((List.range n).map f).sum = ∑ i ∈ Finset.range n, f i := by
  induction n with
  | zero => simp
  | succ n ih => simp [List.range_succ, Finset.sum_range_succ, ih]

set_option maxRecDepth 8000 in
/-- C8: the irradiance convolution shader computes a deterministic
fixed-step Riemann sum.  Azimuth `phi` visits exactly the 629 grid points
`k/100 < 2·PI32` and elevation `theta` exactly the 158 grid points
`k/100 < PI32/2` (steps of `0.01` starting at `0`); each of the
`629 × 158` samples accumulates `tex(sample_dir) · cos(theta) · sin(theta)`,
and the accumulated sum is finally scaled by `PI32` divided by the total
number of samples. -/
theorem conv_riemann_sum (tex : Vec3 → Vec3) (cosq sinq : ℚ → ℚ) (N right up : Vec3) :
    conv_main tex cosq sinq N right up =
      (PI32 / (629 * 158)) •
        ∑ i ∈ Finset.range 629, ∑ j ∈ Finset.range 158,
          (cosq ((j : ℚ) / 100) * sinq ((j : ℚ) / 100)) •
            tex (conv_sample_dir cosq sinq N right up ((i : ℚ) / 100) ((j : ℚ) / 100)) ∧
    (∀ k : ℕ, k < 629 → (k : ℚ) / 100 < 2 * PI32) ∧ ¬((629 : ℚ) / 100 < 2 * PI32) ∧
    (∀ k : ℕ, k < 158 → (k : ℚ) / 100 < (1 / 2) * PI32) ∧
    ¬((158 : ℚ) / 100 < (1 / 2) * PI32) := by
  have hphi : ∀ k : ℕ, k < 629 → (0 : ℚ) + (k : ℚ) * (1 / 100) < 2 * PI32 := by
    intro k hk
    have h1 : (k : ℚ) ≤ 628 := by exact_mod_cast (by omega : k ≤ 628)
    have h2 : (628 : ℚ) * (1 / 100) < 2 * PI32 := by norm_num [PI32]
    have h3 := mul_le_mul_of_nonneg_right h1 (by norm_num : (0 : ℚ) ≤ 1 / 100)
    linarith
  have hphiEnd : ¬((0 : ℚ) + (629 : ℚ) * (1 / 100) < 2 * PI32) := by
    norm_num [PI32]
  have hth : ∀ k : ℕ, k < 158 → (0 : ℚ) + (k : ℚ) * (1 / 100) < (1 / 2) * PI32 := by
    intro k hk
    have h1 : (k : ℚ) ≤ 157 := by exact_mod_cast (by omega : k ≤ 157)
    have h2 : (157 : ℚ) * (1 / 100) < (1 / 2) * PI32 := by norm_num [PI32]
    have h3 := mul_le_mul_of_nonneg_right h1 (by norm_num : (0 : ℚ) ≤ 1 / 100)
    linarith
  have hthEnd : ¬((0 : ℚ) + (158 : ℚ) * (1 / 100) < (1 / 2) * PI32) := by
    norm_num [PI32]
  have hgrid : ∀ k : ℕ, (0 : ℚ) + (k : ℚ) * (1 / 100) = (k : ℚ) / 100 := by
    intro k
    ring
  refine ⟨?_, ?_, by simpa using hphiEnd, ?_, by simpa using hthEnd⟩
  · rw [conv_main]
    rw [float_for_eq_foldl _ _ _ 629 _ _ _ hphi hphiEnd (by norm_num)]
    have hinner : ∀ (phi : ℚ) (st : Vec3 × ℚ),
        float_for 256 ((1 / 2) * PI32) (1 / 100)
          (fun theta (st : Vec3 × ℚ) =>
            (st.1 + (cosq theta * sinq theta) •
              tex (conv_sample_dir cosq sinq N right up phi theta),
             st.2 + 1))
          0 st =
          (st.1 + ∑ j ∈ Finset.range 158,
              (cosq ((j : ℚ) / 100) * sinq ((j : ℚ) / 100)) •
                tex (conv_sample_dir cosq sinq N right up phi ((j : ℚ) / 100)),
           st.2 + 158) := by
      intro phi st
      rw [float_for_eq_foldl _ _ _ 158 _ _ _ hth hthEnd (by norm_num)]
      rw [foldl_pair_add
        (fun theta => (cosq theta * sinq theta) •
          tex (conv_sample_dir cosq sinq N right up phi theta)) 1]
      rw [List.map_map, sum_map_list_range]
      simp only [Function.comp_apply, hgrid, List.length_map, List.length_range]
      refine Prod.ext_iff.mpr ⟨rfl, by push_cast; ring⟩
    have hbody : (fun (st : Vec3 × ℚ) (v : ℚ) =>
        float_for 256 ((1 / 2) * PI32) (1 / 100)
          (fun theta (st : Vec3 × ℚ) =>
            (st.1 + (cosq theta * sinq theta) •
              tex (conv_sample_dir cosq sinq N right up v theta),
             st.2 + 1))
          0 st) =
        fun (st : Vec3 × ℚ) (v : ℚ) =>
          (st.1 + (fun phi => ∑ j ∈ Finset.range 158,
              (cosq ((j : ℚ) / 100) * sinq ((j : ℚ) / 100)) •
                tex (conv_sample_dir cosq sinq N right up phi ((j : ℚ) / 100))) v,
           st.2 + 158) := by
      funext st v
      exact hinner v st
    rw [hbody]
    rw [foldl_pair_add
      (fun phi => ∑ j ∈ Finset.range 158,
        (cosq ((j : ℚ) / 100) * sinq ((j : ℚ) / 100)) •
          tex (conv_sample_dir cosq sinq N right up phi ((j : ℚ) / 100))) 158]
    rw [List.map_map, sum_map_list_range]
    simp only [Function.comp_apply, hgrid, List.length_map, List.length_range]
    have hz : ((0, 0, 0) : Vec3) = 0 := rfl
    rw [hz, zero_add, zero_add]
    have hcnt : (158 : ℚ) * ((629 : ℕ) : ℚ) = 629 * 158 := by push_cast; ring
    rw [hcnt]
  · intro k hk
    have h := hphi k hk
    rw [hgrid] at h
    exact h
  · intro k hk
    have h := hth k hk
    rw [hgrid] at h
    exact h

end GltfViewer
